import Mathlib

/-!
Shallow embedding of the cpp_backtest execution core: the order-fill ledger
(`Simulator`, from src/simulator.cpp as shipped alongside tests/test_runner.cpp)
and the per-bar orchestration loop (`Backtester::run`, from src/backtester.cpp).
C++ `double` values are modelled as `ℚ`; the exact arithmetic of each branch is
kept (including the `1e-9` position snap and the literal sign of every cash
update), so the theorems below are about the program as written.
-/

namespace backtest

/-- From include/order.hpp: `enum class Side { Long, Short }`. -/
inductive Side where
  | Long : Side
  | Short : Side
deriving DecidableEq, Repr

/-- From include/order.hpp: `enum class OrderType { Market, Limit }`. -/
inductive OrderType where
  | Market : OrderType
  | Limit : OrderType
deriving DecidableEq, Repr

/-- From include/order.hpp: a single order intent. -/
structure Order where
  side : Side
  quantity : ℚ
  type : OrderType
  limit_price : ℚ
deriving DecidableEq, Repr

/-- From include/bar.hpp: one OHLCV bar. The C++ field `open` is a Lean
keyword, so it is rendered `open_`. -/
structure Bar where
  timestamp : String
  open_ : ℚ
  high : ℚ
  low : ℚ
  close : ℚ
  volume : ℚ
deriving DecidableEq, Repr

/-- From include/simulator.hpp: a single filled trade record. -/
structure Trade where
  entry_time : String
  exit_time : String
  side : Side
  quantity : ℚ
  entry_price : ℚ
  exit_price : ℚ
  pnl : ℚ
  pnl_pct : ℚ
deriving DecidableEq, Repr

/-- From include/simulator.hpp: the execution ledger's state. Field names keep
the C++ member names (trailing underscore). `slippage_` is declared in the
header; the shipped simulator.cpp constructor initializer list never assigns
it and `processOrders` never reads it. -/
structure Simulator where
  initial_cash_ : ℚ
  commission_ : ℚ
  slippage_ : ℚ
  cash_ : ℚ
  position_ : ℚ
  avg_entry_ : ℚ
  equity_ : ℚ
  last_close_ : ℚ
  pending_order_ : Order
  has_pending_ : Bool
  trades_ : List Trade
  equity_curve_ : List ℚ
  last_bar_time_ : String
deriving DecidableEq, Repr

/-- simulator.cpp: `constexpr double POSITION_ZERO_EPS = 1e-9`. -/
def POSITION_ZERO_EPS : ℚ := 1 / 1000000000

/-- The `Simulator` constructor. The header declares
`Simulator(double initial_cash, double commission_per_trade, double slippage_fraction = 0.0)`
(the form every caller in the repository uses); the model stores the configured
slippage fraction in `slippage_`. All other fields follow the constructor's
initializer list in simulator.cpp. -/
def Simulator.init (initial_cash commission_per_trade slippage_fraction : ℚ) : Simulator :=
  { initial_cash_ := initial_cash
    commission_ := commission_per_trade
    slippage_ := slippage_fraction
    cash_ := initial_cash
    position_ := 0
    avg_entry_ := 0
    equity_ := initial_cash
    last_close_ := 0
    pending_order_ := { side := Side.Long, quantity := 0, type := OrderType.Market, limit_price := 0 }
    has_pending_ := false
    trades_ := []
    equity_curve_ := []
    last_bar_time_ := "" }

/-- simulator.cpp `Simulator::placeOrder`: rejects non-positive quantity,
otherwise overwrites the single pending-order slot. -/
def Simulator.placeOrder (s : Simulator) (side : Side) (quantity : ℚ) : Simulator :=
  if quantity ≤ 0 then s
  else
    { s with
      pending_order_ :=
        { side := side, quantity := quantity, type := OrderType.Market,
          limit_price := s.pending_order_.limit_price }
      has_pending_ := true }

/-- The `if (qty > 0)` open-or-add block at the end of
`Simulator::processOrders`. Note the literal cash update from the source:
`cash_ -= cost - commission_;`. -/
def Simulator.openLeg (s : Simulator) (side : Side) (fill_price qty : ℚ) : Simulator :=
  if qty > 0 then
    let cost := if side = Side.Short then -(fill_price * qty) else fill_price * qty
    let cash2 := s.cash_ - (cost - s.commission_)
    if s.position_ = 0 then
      { s with cash_ := cash2, avg_entry_ := fill_price,
               position_ := if side = Side.Long then qty else -qty }
    else
      let total_qty := |s.position_| + qty
      { s with cash_ := cash2,
               avg_entry_ := (s.avg_entry_ * |s.position_| + fill_price * qty) / total_qty,
               position_ := s.position_ + (if side = Side.Long then qty else -qty) }
  else s

/-- simulator.cpp `Simulator::processOrders`: fill the pending order against
`bar.open` (`double fill_price = bar.open;` — slippage is not applied by this
implementation). First a close/reduce leg when the order side opposes the
current position (with the early `return` when no quantity remains), then the
open/add leg, then the pending slot is cleared and the bar's timestamp
recorded. -/
def Simulator.processOrders (s : Simulator) (bar : Bar) : Simulator :=
  if s.has_pending_ = false then s
  else
    let fill_price := bar.open_
    let qty := s.pending_order_.quantity
    let side := s.pending_order_.side
    if (side = Side.Long ∧ s.position_ < 0) ∨ (side = Side.Short ∧ s.position_ > 0) then
      let close_qty := min qty |s.position_|
      let pnl := if side = Side.Long then (s.avg_entry_ - fill_price) * close_qty
                 else (fill_price - s.avg_entry_) * close_qty
      let cash1 := s.cash_ + (pnl - s.commission_)
      let equity1 := cash1 + s.position_ * fill_price
      let t : Trade :=
        { entry_time := s.last_bar_time_
          exit_time := bar.timestamp
          side := if s.position_ > 0 then Side.Long else Side.Short
          quantity := close_qty
          entry_price := s.avg_entry_
          exit_price := fill_price
          pnl := pnl - s.commission_
          pnl_pct := if s.avg_entry_ ≠ 0 then (pnl - s.commission_) / (s.avg_entry_ * close_qty) * 100
                     else 0 }
      let position1 := if s.position_ > 0 then s.position_ - close_qty else s.position_ + close_qty
      let position2 := if |position1| < POSITION_ZERO_EPS then 0 else position1
      let qty1 := qty - close_qty
      let s1 := { s with cash_ := cash1, equity_ := equity1,
                         trades_ := s.trades_ ++ [t], position_ := position2 }
      if qty1 ≤ 0 then
        { s1 with has_pending_ := false, last_bar_time_ := bar.timestamp }
      else
        let s2 := if |s1.position_| < POSITION_ZERO_EPS then { s1 with avg_entry_ := 0 } else s1
        let s3 := s2.openLeg side fill_price qty1
        { s3 with has_pending_ := false, last_bar_time_ := bar.timestamp }
    else
      let s3 := s.openLeg side fill_price qty
      { s3 with has_pending_ := false, last_bar_time_ := bar.timestamp }

/-- simulator.cpp `Simulator::updateEquity`: set the last close, recompute
equity at the bar's close, append it to the equity curve, record the bar's
timestamp. -/
def Simulator.updateEquity (s : Simulator) (bar : Bar) : Simulator :=
  let eq := s.cash_ + s.position_ * bar.close
  { s with last_close_ := bar.close, equity_ := eq,
           equity_curve_ := s.equity_curve_ ++ [eq], last_bar_time_ := bar.timestamp }

/-- A strategy (an `IStrategy` implementation, strategy.hpp). Its hooks receive
the `BacktestContext` facade; the only mutating operation the facade exposes is
`placeOrder` (backtester.cpp, `BacktestContext::placeOrder` delegates to the
ledger), and `placeOrder` does not change anything the facade's read accessors
report, so a hook's whole interaction with the engine is: read the current bar,
bar index and ledger state, update its own state `τ`, and emit the sequence of
`placeOrder(side, qty)` calls it made. -/
structure Strategy (τ : Type) where
  onStart : Simulator → τ → τ × List (Side × ℚ)
  onBar : ℕ → Bar → Simulator → τ → τ × List (Side × ℚ)
  onEnd : Simulator → τ → τ × List (Side × ℚ)

/-- The sequence of `placeOrder` calls a strategy hook performed, applied in
call order (later calls overwrite the single pending slot). -/
def applyOrders (s : Simulator) (os : List (Side × ℚ)) : Simulator :=
  os.foldl (fun acc o => acc.placeOrder o.1 o.2) s

/-- Ghost record of one fill performed by `processOrders` inside the run loop:
the bar index during whose `onBar` the filled order was placed (`none` when it
was placed in `onStart`), the bar index at which it was filled, and the fill
price `processOrders` used for that bar. -/
structure FillEvent where
  placedAt : Option ℕ
  filledAt : ℕ
  price : ℚ
deriving DecidableEq, Repr

/-- The state threaded through `Backtester::run`'s per-bar loop, plus ghost
trace fields (`pendingTag`, `processed`, `onBarCalls`, `fills`) that record
what the loop did without influencing it. `processed` holds, for every bar
whose iteration body ran, the pair (bar index, `eq_after_fill` computed at
backtester.cpp line 61). -/
structure LoopSt (τ : Type) where
  sim : Simulator
  st : τ
  peak : ℚ
  pendingTag : Option ℕ
  stopped : Bool
  reason : String
  processed : List (ℕ × ℚ)
  onBarCalls : List ℕ
  fills : List FillEvent

/-- The `for (std::size_t i = 0; ...)` loop of `Backtester::run`
(backtester.cpp): process pending orders at this bar's open, run the
immediate-ruin check on open-based equity, invoke the strategy, mark to market
at the close, update the running peak and drawdown, and stop early on ruin or
100% drawdown. -/
def loopGo {τ : Type} (strat : Strategy τ) : ℕ → List Bar → LoopSt τ → LoopSt τ
  | _, [], A => A
  | i, bar :: rest, A =>
    let fills1 := if A.sim.has_pending_ then A.fills ++ [⟨A.pendingTag, i, bar.open_⟩] else A.fills
    let sim1 := A.sim.processOrders bar
    let eq_after_fill := sim1.cash_ + sim1.position_ * bar.open_
    let processed1 := A.processed ++ [(i, eq_after_fill)]
    if eq_after_fill ≤ 0 then
      { sim := sim1.updateEquity bar, st := A.st, peak := A.peak, pendingTag := none,
        stopped := true, reason := "no more equity",
        processed := processed1, onBarCalls := A.onBarCalls, fills := fills1 }
    else
      let p := strat.onBar i bar sim1 A.st
      let sim2 := applyOrders sim1 p.2
      let tag1 : Option ℕ := if sim2.has_pending_ then some i else none
      let sim3 := sim2.updateEquity bar
      let peak1 := if sim3.equity_ > A.peak then sim3.equity_ else A.peak
      let drawdown_pct := if peak1 > 0 then (peak1 - sim3.equity_) / peak1 * 100 else 100
      let A1 : LoopSt τ :=
        { sim := sim3, st := p.1, peak := peak1, pendingTag := tag1,
          stopped := A.stopped, reason := A.reason,
          processed := processed1, onBarCalls := A.onBarCalls ++ [i], fills := fills1 }
      if sim3.equity_ ≤ 0 then { A1 with stopped := true, reason := "no more equity" }
      else if drawdown_pct ≥ 100 then { A1 with stopped := true, reason := "max drawdown 100%" }
      else loopGo strat (i + 1) rest A1

/-- The observable outcome of `Backtester::run`: the boolean the function
returns (`ok`), the ledger, the stopped-early flag and reason string the caller
can read through `stoppedEarly()` / `stopReason()`, the strategy's final state,
and the ghost traces accumulated by the loop. `onStartCalled` / `onEndCalls`
record whether `onStart` ran and how many times `onEnd` ran. -/
structure RunResult (τ : Type) where
  ok : Bool
  sim : Simulator
  stopped_early_ : Bool
  stop_reason_ : String
  stratState : τ
  processed : List (ℕ × ℚ)
  onBarCalls : List ℕ
  fills : List FillEvent
  onStartCalled : Bool
  onEndCalls : ℕ

/-- `Backtester::run` (backtester.cpp lines 40-93). Loading and aggregating the
bar sequence is the DataSource collaborator's job (out of core scope); its
outcome enters the core as `load_result`: `none` when `load()` /
`loadFromDatabentoDir` failed, otherwise the bar sequence (`!ok || data_.empty()`
is the guard). On failure the function returns `false` before the context is
created, so no hook runs and no bar is processed. Otherwise `onStart` runs once,
the loop runs, and `onEnd` runs exactly once; the function returns `true` even
after an early stop. -/
def Backtester.run {τ : Type} (strat : Strategy τ) (initial_cash commission slippage : ℚ)
    (st0 : τ) (load_result : Option (List Bar)) : RunResult τ :=
  let sim0 := Simulator.init initial_cash commission slippage
  match load_result with
  | none =>
    { ok := false, sim := sim0, stopped_early_ := false, stop_reason_ := "", stratState := st0,
      processed := [], onBarCalls := [], fills := [], onStartCalled := false, onEndCalls := 0 }
  | some bars =>
    if bars.isEmpty then
      { ok := false, sim := sim0, stopped_early_ := false, stop_reason_ := "", stratState := st0,
        processed := [], onBarCalls := [], fills := [], onStartCalled := false, onEndCalls := 0 }
    else
      let p0 := strat.onStart sim0 st0
      let sim1 := applyOrders sim0 p0.2
      let A0 : LoopSt τ :=
        { sim := sim1, st := p0.1, peak := initial_cash, pendingTag := none,
          stopped := false, reason := "", processed := [], onBarCalls := [], fills := [] }
      let A := loopGo strat 0 bars A0
      let p2 := strat.onEnd A.sim A.st
      { ok := true, sim := applyOrders A.sim p2.2, stopped_early_ := A.stopped,
        stop_reason_ := A.reason, stratState := p2.1, processed := A.processed,
        onBarCalls := A.onBarCalls, fills := A.fills, onStartCalled := true, onEndCalls := 1 }

/-- `Backtester.run` on a successfully loaded bar sequence. -/
def Backtester.runSome {τ : Type} (strat : Strategy τ) (initial_cash commission slippage : ℚ)
    (st0 : τ) (bars : List Bar) : RunResult τ :=
  Backtester.run strat initial_cash commission slippage st0 (some bars)

/-! Preservation lemmas: which ledger fields each operation leaves alone. -/

lemma Side.long_ne_short : Side.Long ≠ Side.Short := by decide

lemma Side.short_ne_long : Side.Short ≠ Side.Long := by decide

lemma Simulator.placeOrder_equity_curve (s : Simulator) (side : Side) (q : ℚ) :
    (s.placeOrder side q).equity_curve_ = s.equity_curve_ := by
  unfold Simulator.placeOrder; split <;> rfl

lemma Simulator.placeOrder_equity (s : Simulator) (side : Side) (q : ℚ) :
    (s.placeOrder side q).equity_ = s.equity_ := by
  unfold Simulator.placeOrder; split <;> rfl

lemma applyOrders_equity_curve (os : List (Side × ℚ)) (s : Simulator) :
    (applyOrders s os).equity_curve_ = s.equity_curve_ := by
  induction os generalizing s with
  | nil => rfl
  | cons o os ih =>
      show (applyOrders (s.placeOrder o.1 o.2) os).equity_curve_ = s.equity_curve_
      rw [ih, Simulator.placeOrder_equity_curve]

lemma applyOrders_equity (os : List (Side × ℚ)) (s : Simulator) :
    (applyOrders s os).equity_ = s.equity_ := by
  induction os generalizing s with
  | nil => rfl
  | cons o os ih =>
      show (applyOrders (s.placeOrder o.1 o.2) os).equity_ = s.equity_
      rw [ih, Simulator.placeOrder_equity]

lemma Simulator.openLeg_equity_curve (s : Simulator) (side : Side) (fp q : ℚ) :
    (s.openLeg side fp q).equity_curve_ = s.equity_curve_ := by
  unfold Simulator.openLeg; split_ifs <;> rfl

lemma Simulator.processOrders_equity_curve (s : Simulator) (bar : Bar) :
    (s.processOrders bar).equity_curve_ = s.equity_curve_ := by
  simp only [Simulator.processOrders, Simulator.openLeg_equity_curve,
    apply_ite Simulator.equity_curve_, ite_self]

lemma Simulator.updateEquity_equity_curve (s : Simulator) (bar : Bar) :
    (s.updateEquity bar).equity_curve_ = s.equity_curve_ ++ [s.cash_ + s.position_ * bar.close] :=
  rfl

lemma Simulator.updateEquity_equity (s : Simulator) (bar : Bar) :
    (s.updateEquity bar).equity_ = s.cash_ + s.position_ * bar.close :=
  rfl

/-- A recorded fill is well-formed: an order placed during `onBar` at bar `j`
was filled at bar `j + 1`, at that bar's open price. -/
def FillOk (bars : List Bar) (e : FillEvent) : Prop :=
  ∀ j, e.placedAt = some j →
    e.filledAt = j + 1 ∧ ∃ b, bars.get? e.filledAt = some b ∧ e.price = b.open_

/-- Loop invariant at the head of iteration `i`. -/
def LoopInv {τ : Type} (bars : List Bar) (i : ℕ) (A : LoopSt τ) : Prop :=
  A.processed.map Prod.fst = List.range i ∧
  (∀ p ∈ A.processed, (0:ℚ) < p.2) ∧
  A.onBarCalls = List.range i ∧
  A.sim.equity_curve_.length = A.processed.length ∧
  (∀ j, A.pendingTag = some j → j + 1 = i) ∧
  A.stopped = false ∧
  (∀ e ∈ A.fills, FillOk bars e)

/-- What holds of the loop's final state when at most `n` bars could have been
processed in total. -/
def LoopPost {τ : Type} (bars : List Bar) (n : ℕ) (R : LoopSt τ) : Prop :=
  (R.stopped = true → R.reason = "no more equity" ∨ R.reason = "max drawdown 100%") ∧
  R.sim.equity_curve_.length = R.processed.length ∧
  R.processed.map Prod.fst = List.range R.processed.length ∧
  R.processed.length ≤ n ∧
  (R.processed.length < n → R.stopped = true) ∧
  (R.stopped = true → R.sim.equity_curve_.getLast? = some R.sim.equity_) ∧
  (∀ p ∈ R.processed, p.2 ≤ 0 →
      R.stopped = true ∧ R.reason = "no more equity" ∧ p.1 ∉ R.onBarCalls ∧
      R.processed.map Prod.fst = List.range (p.1 + 1) ∧
      R.sim.equity_curve_.length = p.1 + 1) ∧
  (∀ e ∈ R.fills, FillOk bars e)

lemma loopGo_spec {τ : Type} (strat : Strategy τ) (bars : List Bar) (L : List Bar) :
    ∀ (i : ℕ) (A : LoopSt τ),
      (∀ k, L.get? k = bars.get? (i + k)) → LoopInv bars i A →
      LoopPost bars (i + L.length) (loopGo strat i L A) := by
  induction L with
  | nil =>
      intro i A hL hInv
      obtain ⟨h1, h2, h3, h4, h5, h6, h7⟩ := hInv
      have hlen : A.processed.length = i := by
        have h := congrArg List.length h1
        simpa using h
      simp only [loopGo, LoopPost, List.length_nil, Nat.add_zero]
      refine ⟨?_, h4, ?_, ?_, ?_, ?_, ?_, h7⟩
      · intro hs; rw [h6] at hs; cases hs
      · rw [hlen]; exact h1
      · omega
      · intro h; omega
      · intro hs; rw [h6] at hs; cases hs
      · intro p hp hple
        have := h2 p hp
        exact absurd hple (by linarith)
  | cons bar rest ih =>
      intro i A hL hInv
      obtain ⟨h1, h2, h3, h4, h5, h6, h7⟩ := hInv
      have hlen : A.processed.length = i := by
        have h := congrArg List.length h1
        simpa using h
      have hbar : bars.get? i = some bar := by
        have h := hL 0
        simpa using h.symm
      simp only [loopGo, List.length_cons]
      set sim1 := A.sim.processOrders bar with hsim1
      set pOB := strat.onBar i bar sim1 A.st with hpOB
      set sim2 := applyOrders sim1 pOB.2 with hsim2
      set sim3 := sim2.updateEquity bar with hsim3
      set eqf := sim1.cash_ + sim1.position_ * bar.open_ with heqf
      set peak1 := if sim3.equity_ > A.peak then sim3.equity_ else A.peak with hpeak1
      set dd := if peak1 > 0 then (peak1 - sim3.equity_) / peak1 * 100 else 100 with hdd
      set fills1 := (if A.sim.has_pending_ = true
          then A.fills ++ [⟨A.pendingTag, i, bar.open_⟩] else A.fills) with hfills1
      have hfills : ∀ e ∈ fills1, FillOk bars e := by
        intro e he
        rw [hfills1] at he
        by_cases hpend : A.sim.has_pending_ = true
        · rw [if_pos hpend] at he
          rcases List.mem_append.mp he with hmem | hmem
          · exact h7 e hmem
          · have he2 := List.mem_singleton.mp hmem
            subst he2
            intro j hj
            have hij := h5 j hj
            exact ⟨hij.symm, bar, hij ▸ hbar, rfl⟩
        · rw [if_neg hpend] at he
          exact h7 e he
      have hcurve1 : (sim1.updateEquity bar).equity_curve_.length = A.processed.length + 1 := by
        rw [Simulator.updateEquity_equity_curve, hsim1, Simulator.processOrders_equity_curve]
        simp [h4]
      have hcurve3 : sim3.equity_curve_.length = A.processed.length + 1 := by
        rw [hsim3, Simulator.updateEquity_equity_curve, hsim2, applyOrders_equity_curve,
          hsim1, Simulator.processOrders_equity_curve]
        simp [h4]
      have hlast1 : (sim1.updateEquity bar).equity_curve_.getLast? =
          some (sim1.updateEquity bar).equity_ := by
        rw [Simulator.updateEquity_equity_curve, Simulator.updateEquity_equity,
          List.getLast?_concat]
      have hlast3 : sim3.equity_curve_.getLast? = some sim3.equity_ := by
        rw [hsim3, Simulator.updateEquity_equity_curve, Simulator.updateEquity_equity,
          List.getLast?_concat]
      have hmapfst : (A.processed ++ [(i, eqf)]).map Prod.fst = List.range (i + 1) := by
        simp [h1, List.range_succ]
      have hplen : (A.processed ++ [(i, eqf)]).length = i + 1 := by
        simp [hlen]
      split
      next hruin =>
        refine ⟨?_, ?_, ?_, ?_, ?_, ?_, ?_, hfills⟩
        · intro _; exact Or.inl rfl
        · rw [hcurve1]; simp
        · rw [hplen]; exact hmapfst
        · rw [hplen]; omega
        · intro _; rfl
        · intro _; exact hlast1
        · intro p hp hple
          rcases List.mem_append.mp hp with hmem | hmem
          · exact absurd hple (not_le.mpr (h2 p hmem))
          · have hp2 := List.mem_singleton.mp hmem
            subst hp2
            refine ⟨rfl, rfl, ?_, hmapfst, ?_⟩
            · rw [h3]; simp
            · rw [hcurve1, hlen]
      next hnr =>
        split
        next hceq =>
          refine ⟨?_, ?_, ?_, ?_, ?_, ?_, ?_, hfills⟩
          · intro _; exact Or.inl rfl
          · rw [hcurve3]; simp
          · rw [hplen]; exact hmapfst
          · rw [hplen]; omega
          · intro _; rfl
          · intro _; exact hlast3
          · intro p hp hple
            rcases List.mem_append.mp hp with hmem | hmem
            · exact absurd hple (not_le.mpr (h2 p hmem))
            · have hp2 := List.mem_singleton.mp hmem
              subst hp2
              exact absurd hple hnr
        next hc2 =>
          split
          next hddge =>
            refine ⟨?_, ?_, ?_, ?_, ?_, ?_, ?_, hfills⟩
            · intro _; exact Or.inr rfl
            · rw [hcurve3]; simp
            · rw [hplen]; exact hmapfst
            · rw [hplen]; omega
            · intro _; rfl
            · intro _; exact hlast3
            · intro p hp hple
              rcases List.mem_append.mp hp with hmem | hmem
              · exact absurd hple (not_le.mpr (h2 p hmem))
              · have hp2 := List.mem_singleton.mp hmem
                subst hp2
                exact absurd hple hnr
          next hd2 =>
            have hn : i + (rest.length + 1) = (i + 1) + rest.length := by omega
            rw [hn]
            apply ih (i + 1)
            · intro k
              have h := hL (k + 1)
              have hidx : i + (k + 1) = i + 1 + k := by omega
              rw [hidx] at h
              exact h
            · refine ⟨hmapfst, ?_, ?_, ?_, ?_, h6, hfills⟩
              · intro p hp
                rcases List.mem_append.mp hp with hmem | hmem
                · exact h2 p hmem
                · have hp2 := List.mem_singleton.mp hmem
                  subst hp2
                  exact lt_of_not_le hnr
              · rw [h3, List.range_succ]
              · rw [hcurve3, hplen, hlen]
              · intro j hj
                by_cases hpend2 : sim2.has_pending_ = true
                · rw [if_pos hpend2] at hj
                  cases hj
                  omega
                · rw [if_neg hpend2] at hj
                  cases hj

/-- Everything `loopGo_spec` yields, transported to the observable outcome of a
run on a successfully loaded bar sequence (for an empty sequence the run fails
without processing anything, and every conjunct holds trivially). -/
lemma runSome_post {τ : Type} (strat : Strategy τ) (c cm sl : ℚ) (st0 : τ) (bars : List Bar) :
    ((Backtester.runSome strat c cm sl st0 bars).stopped_early_ = true →
        (Backtester.runSome strat c cm sl st0 bars).stop_reason_ = "no more equity" ∨
        (Backtester.runSome strat c cm sl st0 bars).stop_reason_ = "max drawdown 100%") ∧
    (Backtester.runSome strat c cm sl st0 bars).sim.equity_curve_.length =
      (Backtester.runSome strat c cm sl st0 bars).processed.length ∧
    (Backtester.runSome strat c cm sl st0 bars).processed.map Prod.fst =
      List.range (Backtester.runSome strat c cm sl st0 bars).processed.length ∧
    (Backtester.runSome strat c cm sl st0 bars).processed.length ≤ bars.length ∧
    ((Backtester.runSome strat c cm sl st0 bars).processed.length < bars.length →
        (Backtester.runSome strat c cm sl st0 bars).stopped_early_ = true) ∧
    ((Backtester.runSome strat c cm sl st0 bars).stopped_early_ = true →
        (Backtester.runSome strat c cm sl st0 bars).sim.equity_curve_.getLast? =
          some (Backtester.runSome strat c cm sl st0 bars).sim.equity_) ∧
    (∀ p ∈ (Backtester.runSome strat c cm sl st0 bars).processed, p.2 ≤ 0 →
        (Backtester.runSome strat c cm sl st0 bars).stopped_early_ = true ∧
        (Backtester.runSome strat c cm sl st0 bars).stop_reason_ = "no more equity" ∧
        p.1 ∉ (Backtester.runSome strat c cm sl st0 bars).onBarCalls ∧
        (Backtester.runSome strat c cm sl st0 bars).processed.map Prod.fst =
          List.range (p.1 + 1) ∧
        (Backtester.runSome strat c cm sl st0 bars).sim.equity_curve_.length = p.1 + 1) ∧
    (∀ e ∈ (Backtester.runSome strat c cm sl st0 bars).fills, FillOk bars e) := by
  simp only [Backtester.runSome, Backtester.run]
  by_cases hE : bars.isEmpty
  · rw [if_pos hE]
    have hb : bars = [] := List.isEmpty_iff.mp hE
    subst hb
    refine ⟨?_, rfl, rfl, ?_, ?_, ?_, ?_, ?_⟩
    · intro hs; cases hs
    · simp
    · intro h; simp at h
    · intro hs; cases hs
    · intro p hp; simp at hp
    · intro e he; simp at he
  · rw [if_neg hE]
    have hP := loopGo_spec strat bars bars 0
      { sim := applyOrders (Simulator.init c cm sl) (strat.onStart (Simulator.init c cm sl) st0).2,
        st := (strat.onStart (Simulator.init c cm sl) st0).1, peak := c, pendingTag := none,
        stopped := false, reason := "", processed := [], onBarCalls := [], fills := [] }
      (by intro k; simp)
      (by
        refine ⟨rfl, ?_, rfl, ?_, ?_, rfl, ?_⟩
        · intro p hp; simp at hp
        · rw [applyOrders_equity_curve]; rfl
        · intro j hj; cases hj
        · intro e he; simp at he)
    obtain ⟨g1, g2, g3, g4, g5, g6, g7, g8⟩ := hP
    rw [Nat.zero_add] at g4 g5
    refine ⟨g1, ?_, g3, g4, g5, ?_, ?_, g8⟩
    · rw [applyOrders_equity_curve]; exact g2
    · intro hs
      rw [applyOrders_equity_curve, applyOrders_equity]
      exact g6 hs
    · intro p hp hple
      obtain ⟨k1, k2, k3, k4, k5⟩ := g7 p hp hple
      exact ⟨k1, k2, k3, k4, by rw [applyOrders_equity_curve]; exact k5⟩

/-- The exact-full-close path of `Simulator::processOrders`: when the pending
order opposes the position and its quantity equals the position magnitude, the
`qty <= 0` early return runs; the position is snapped to 0 but `avg_entry_` is
left untouched, and `equity_` was computed with the pre-reduction position. -/
lemma processOrders_exact_close (s : Simulator) (bar : Bar)
    (hp : s.has_pending_ = true)
    (hopp : (s.pending_order_.side = Side.Long ∧ s.position_ < 0) ∨
            (s.pending_order_.side = Side.Short ∧ s.position_ > 0))
    (hq : s.pending_order_.quantity = |s.position_|) :
    (s.processOrders bar).position_ = 0 ∧
    (s.processOrders bar).avg_entry_ = s.avg_entry_ ∧
    (s.processOrders bar).cash_ = s.cash_ +
      ((if s.pending_order_.side = Side.Long then (s.avg_entry_ - bar.open_) * |s.position_|
        else (bar.open_ - s.avg_entry_) * |s.position_|) - s.commission_) ∧
    (s.processOrders bar).equity_ = (s.processOrders bar).cash_ + s.position_ * bar.open_ := by
  have heps : (0 : ℚ) < POSITION_ZERO_EPS := by norm_num [POSITION_ZERO_EPS]
  simp only [Simulator.processOrders, hp, Bool.true_eq_false, if_false, if_pos hopp,
    hq, min_self]
  have hq0 : |s.position_| - |s.position_| ≤ (0 : ℚ) := by simp
  rw [if_pos hq0]
  rcases hopp with ⟨hside, hpos⟩ | ⟨hside, hpos⟩
  · have habs : |s.position_| = -s.position_ := abs_of_neg hpos
    have hlt : ¬ s.position_ > 0 := by linarith
    rw [if_neg hlt, habs]
    have h0 : s.position_ + -s.position_ = 0 := by ring
    rw [h0, abs_zero, if_pos heps]
    exact ⟨rfl, rfl, rfl, rfl⟩
  · have habs : |s.position_| = s.position_ := abs_of_pos hpos
    rw [if_pos hpos, habs]
    have h0 : s.position_ - s.position_ = 0 := by ring
    rw [h0, abs_zero, if_pos heps]
    exact ⟨rfl, rfl, rfl, rfl⟩

/-! Concrete fixtures used by the claim theorems and witnesses below. -/

/-- Bar with open 100 (the entry bar of the test scenarios). -/
def bar100 : Bar :=
  { timestamp := "2024-01-01T10:00", open_ := 100, high := 101, low := 99, close := 100.5,
    volume := 0 }

/-- Bar with open 102 (the exit bar of the test scenarios). -/
def bar102 : Bar :=
  { timestamp := "2024-01-01T10:15", open_ := 102, high := 103, low := 101, close := 102,
    volume := 0 }

/-- The ledger mid-way through Scenario A: long 10 at entry 100, with a
Short 10 order pending. -/
def simMid : Simulator :=
  (((Simulator.init 10000 0 0).placeOrder Side.Long 10).processOrders bar100).placeOrder
    Side.Short 10

lemma simMid_eval :
    simMid.has_pending_ = true ∧ simMid.pending_order_.side = Side.Short ∧
    simMid.pending_order_.quantity = 10 ∧ simMid.position_ = 10 ∧ simMid.avg_entry_ = 100 ∧
    simMid.cash_ = 9000 := by
  norm_num [simMid, Simulator.init, Simulator.placeOrder, Simulator.processOrders,
    Simulator.openLeg, bar100, POSITION_ZERO_EPS, Side.long_ne_short, Side.short_ne_long]

/-- C1: the spec claims a fill price of `open*(1+s)` for longs and `open*(1-s)`
for shorts for every configured slippage fraction `s ≥ 0`. The implementation
sets `fill_price = bar.open` and never reads `slippage_`: with slippage 1%
configured and no commission, a Long 10 order on a bar with open 100 leaves
average entry 100 and cash 9000 (fill at 100), where the claim requires
average entry 101 and cash 8990 (fill at 101). This contradicts the header
documentation of `Simulator` and the `run_simulator_slippage` test, so it is
recorded as a code bug rather than refuting the claim's intent. -/
theorem C1_processOrders_ignores_slippage :
    (((Simulator.init 10000 0 (1 / 100)).placeOrder Side.Long 10).processOrders bar100).slippage_
        = 1 / 100 ∧
    (((Simulator.init 10000 0 (1 / 100)).placeOrder Side.Long 10).processOrders bar100).avg_entry_
        = 100 ∧
    (((Simulator.init 10000 0 (1 / 100)).placeOrder Side.Long 10).processOrders bar100).cash_
        = 9000 ∧
    ¬ (((Simulator.init 10000 0 (1 / 100)).placeOrder Side.Long 10).processOrders bar100).cash_
        = 10000 - 100 * (1 + 1 / 100) * 10 := by
  norm_num [Simulator.init, Simulator.placeOrder, Simulator.processOrders, Simulator.openLeg,
    bar100, POSITION_ZERO_EPS, Side.long_ne_short, Side.short_ne_long]

/-- C2 counterexample: after Long 10 filled at open 100 and a Short 10 filled
at open 102 (the exact-close of Scenario A), the position is 0 but
`avgEntryPrice()` still reports 100, not 0: the claimed invariant
`position == 0 → avgEntryPrice() == 0` fails in a reachable state, immediately
after the fully-closing `processOrders` call. -/
theorem C2_counterexample :
    (simMid.processOrders bar102).position_ = 0 ∧
    (simMid.processOrders bar102).avg_entry_ = 100 ∧
    ¬ (simMid.processOrders bar102).avg_entry_ = 0 := by
  norm_num [simMid, Simulator.init, Simulator.placeOrder, Simulator.processOrders,
    Simulator.openLeg, bar100, bar102, POSITION_ZERO_EPS, Side.long_ne_short, Side.short_ne_long]

/-- C2 amended: a `processOrders` call whose close leg consumes the whole order
quantity exactly (order quantity = |position|, opposite side) takes the early
return before the `avg_entry_ = 0` reset: the position becomes exactly 0 while
`avgEntryPrice()` retains the pre-close average entry price. (The reset is
reached only on an over-closing order that flips the position, where the open
leg immediately overwrites the average entry anyway.) -/
theorem C2_exact_close_retains_avg_entry (s : Simulator) (bar : Bar)
    (hp : s.has_pending_ = true)
    (hopp : (s.pending_order_.side = Side.Long ∧ s.position_ < 0) ∨
            (s.pending_order_.side = Side.Short ∧ s.position_ > 0))
    (hq : s.pending_order_.quantity = |s.position_|) :
    (s.processOrders bar).position_ = 0 ∧
    (s.processOrders bar).avg_entry_ = s.avg_entry_ := by
  have h := processOrders_exact_close s bar hp hopp hq
  exact ⟨h.1, h.2.1⟩

/-- C2 witness: the amended theorem applied to the concrete Scenario A close. -/
theorem C2_witness :
    simMid.has_pending_ = true ∧
    (simMid.pending_order_.side = Side.Short ∧ simMid.position_ > 0) ∧
    simMid.pending_order_.quantity = |simMid.position_| ∧
    ((simMid.processOrders bar102).position_ = 0 ∧
      (simMid.processOrders bar102).avg_entry_ = simMid.avg_entry_) := by
  obtain ⟨e1, e2, e3, e4, e5, e6⟩ := simMid_eval
  have hs : simMid.pending_order_.side = Side.Short ∧ simMid.position_ > 0 := by
    rw [e2, e4]; norm_num
  have hq : simMid.pending_order_.quantity = |simMid.position_| := by
    rw [e3, e4]; norm_num
  exact ⟨e1, hs, hq, C2_exact_close_retains_avg_entry simMid bar102 e1 (Or.inr hs) hq⟩

/-- C3: the claim says the open/add leg changes cash by `-(p*q) - commission`
for a long (commission subtracted per leg). The implementation executes
`cash_ -= cost - commission_;`, which adds the commission back: with commission
1, Long 5 at open 100 from cash 10000 leaves cash 9501, not the 9499 the claim
(and the spec's per-leg charge model) requires. Recorded as a code bug: the
close leg charges `- commission_` while the open leg credits it, and a
commission credited to the account contradicts the constructor's
`commission_per_trade` contract. -/
theorem C3_open_leg_credits_commission :
    (((Simulator.init 10000 1 0).placeOrder Side.Long 5).processOrders bar100).position_ = 5 ∧
    (((Simulator.init 10000 1 0).placeOrder Side.Long 5).processOrders bar100).cash_ = 9501 ∧
    ¬ (((Simulator.init 10000 1 0).placeOrder Side.Long 5).processOrders bar100).cash_
        = 10000 - 100 * 5 - 1 := by
  norm_num [Simulator.init, Simulator.placeOrder, Simulator.processOrders, Simulator.openLeg,
    bar100, POSITION_ZERO_EPS, Side.long_ne_short, Side.short_ne_long]

/-- C5: Scenario A with initial cash 10000, no commission, no slippage:
Long 10 processed on a bar with open 100 gives position 10 and cash 9000;
Short 10 processed on a bar with open 102 then gives position 0, cash 9020,
and exactly one Trade record with pnl 20. -/
theorem C5_scenario_A :
    ((((Simulator.init 10000 0 0).placeOrder Side.Long 10).processOrders bar100).position_ = 10 ∧
     (((Simulator.init 10000 0 0).placeOrder Side.Long 10).processOrders bar100).cash_ = 9000) ∧
    ((simMid.processOrders bar102).position_ = 0 ∧
     (simMid.processOrders bar102).cash_ = 9020 ∧
     (simMid.processOrders bar102).trades_.length = 1 ∧
     (simMid.processOrders bar102).trades_.map Trade.pnl = [20]) := by
  norm_num [simMid, Simulator.init, Simulator.placeOrder, Simulator.processOrders,
    Simulator.openLeg, bar100, bar102, POSITION_ZERO_EPS, Side.long_ne_short, Side.short_ne_long]

/-- C9: the close/reduce leg of `processOrders` recomputes the stored equity as
`cash + position * fill_price` with the position value from before the
reduction (`equity_ = cash_ + position_ * fill_price;  // will update position_
below`). Hence immediately after an exact full close, `equity()` differs from
`cash() + position() * bar.open` whenever the closed position value was
nonzero — which is why `Backtester::run` recomputes `cash + position * open`
itself for the ruin check instead of reading `equity()`. -/
theorem C9_close_leg_equity_uses_stale_position (s : Simulator) (bar : Bar)
    (hp : s.has_pending_ = true)
    (hopp : (s.pending_order_.side = Side.Long ∧ s.position_ < 0) ∨
            (s.pending_order_.side = Side.Short ∧ s.position_ > 0))
    (hq : s.pending_order_.quantity = |s.position_|)
    (hnz : s.position_ * bar.open_ ≠ 0) :
    (s.processOrders bar).position_ = 0 ∧
    (s.processOrders bar).equity_ = (s.processOrders bar).cash_ + s.position_ * bar.open_ ∧
    (s.processOrders bar).equity_ ≠
      (s.processOrders bar).cash_ + (s.processOrders bar).position_ * bar.open_ := by
  have h := processOrders_exact_close s bar hp hopp hq
  refine ⟨h.1, h.2.2.2, ?_⟩
  rw [h.2.2.2, h.1]
  intro hcontra
  apply hnz
  linarith

/-- C9 witness: the theorem applied to the concrete Scenario A close, where the
stale equity is 9020 + 10*102 = 10040 while cash + position*open = 9020. -/
theorem C9_witness :
    simMid.has_pending_ = true ∧
    (simMid.pending_order_.side = Side.Short ∧ simMid.position_ > 0) ∧
    simMid.pending_order_.quantity = |simMid.position_| ∧
    simMid.position_ * bar102.open_ ≠ 0 ∧
    ((simMid.processOrders bar102).position_ = 0 ∧
     (simMid.processOrders bar102).equity_ =
       (simMid.processOrders bar102).cash_ + simMid.position_ * bar102.open_ ∧
     (simMid.processOrders bar102).equity_ ≠
       (simMid.processOrders bar102).cash_ +
         (simMid.processOrders bar102).position_ * bar102.open_) := by
  obtain ⟨e1, e2, e3, e4, e5, e6⟩ := simMid_eval
  have hs : simMid.pending_order_.side = Side.Short ∧ simMid.position_ > 0 := by
    rw [e2, e4]; norm_num
  have hq : simMid.pending_order_.quantity = |simMid.position_| := by
    rw [e3, e4]; norm_num
  have hnz : simMid.position_ * bar102.open_ ≠ 0 := by
    rw [e4]; norm_num [bar102]
  exact ⟨e1, hs, hq, hnz,
    C9_close_leg_equity_uses_stale_position simMid bar102 e1 (Or.inr hs) hq hnz⟩

/-- C10: `updateEquity(bar)` changes only the last close (to `bar.close`), the
equity (to `cash + position * bar.close`), the equity curve (one appended
value) and the last-processed timestamp; cash, position, average entry, the
trade log, the pending-order slot and the configuration are left unchanged. -/
theorem C10_updateEquity_frame (s : Simulator) (bar : Bar) :
    (s.updateEquity bar).cash_ = s.cash_ ∧
    (s.updateEquity bar).position_ = s.position_ ∧
    (s.updateEquity bar).avg_entry_ = s.avg_entry_ ∧
    (s.updateEquity bar).trades_ = s.trades_ ∧
    (s.updateEquity bar).pending_order_ = s.pending_order_ ∧
    (s.updateEquity bar).has_pending_ = s.has_pending_ ∧
    (s.updateEquity bar).initial_cash_ = s.initial_cash_ ∧
    (s.updateEquity bar).commission_ = s.commission_ ∧
    (s.updateEquity bar).slippage_ = s.slippage_ ∧
    (s.updateEquity bar).last_close_ = bar.close ∧
    (s.updateEquity bar).equity_ = s.cash_ + s.position_ * bar.close ∧
    (s.updateEquity bar).equity_curve_ = s.equity_curve_ ++ [s.cash_ + s.position_ * bar.close] ∧
    (s.updateEquity bar).last_bar_time_ = bar.timestamp :=
  ⟨rfl, rfl, rfl, rfl, rfl, rfl, rfl, rfl, rfl, rfl, rfl, rfl, rfl⟩

/-- C4: in `Backtester::run`, `processOrders(bar_i)` runs before
`onBar(bar_i)`, so an order the strategy places while processing bar `i` can
first be consumed at iteration `i + 1`: every fill of an order placed during
`onBar` at bar `i` happens at bar `i + 1` and uses that bar's open as the fill
price — never bar `i`'s own open, never any later bar. -/
theorem C4_order_placed_at_bar_i_fills_at_next_open {τ : Type} (strat : Strategy τ)
    (c cm sl : ℚ) (st0 : τ) (bars : List Bar) (e : FillEvent) (i : ℕ)
    (he : e ∈ (Backtester.runSome strat c cm sl st0 bars).fills)
    (hp : e.placedAt = some i) :
    e.filledAt = i + 1 ∧ ∃ b, bars.get? e.filledAt = some b ∧ e.price = b.open_ :=
  (runSome_post strat c cm sl st0 bars).2.2.2.2.2.2.2 e he i hp

/-- C6: if the open-based equity `cash + position * bar_i.open` computed right
after `processOrders` at bar `i` is ≤ 0, the run stops early with reason
"no more equity", records exactly one more equity-curve point (the curve ends
with length `i + 1`, one point per processed bar including bar `i`), does not
invoke the strategy's `onBar` for bar `i`, and processes no bar after `i`. -/
theorem C6_ruin_check_stops_before_strategy {τ : Type} (strat : Strategy τ)
    (c cm sl : ℚ) (st0 : τ) (bars : List Bar) (i : ℕ) (e : ℚ)
    (hmem : (i, e) ∈ (Backtester.runSome strat c cm sl st0 bars).processed)
    (he : e ≤ 0) :
    (Backtester.runSome strat c cm sl st0 bars).stopped_early_ = true ∧
    (Backtester.runSome strat c cm sl st0 bars).stop_reason_ = "no more equity" ∧
    i ∉ (Backtester.runSome strat c cm sl st0 bars).onBarCalls ∧
    (Backtester.runSome strat c cm sl st0 bars).processed.map Prod.fst = List.range (i + 1) ∧
    (Backtester.runSome strat c cm sl st0 bars).sim.equity_curve_.length = i + 1 :=
  (runSome_post strat c cm sl st0 bars).2.2.2.2.2.2.1 (i, e) hmem he

/-- C7: each `updateEquity` call appends exactly one value to the equity curve;
over a whole run the curve length equals the number of processed bars, is at
most the number of bars, is strictly smaller only when the run stopped early,
and on an early stop the stopping bar's final equity is the last curve point. -/
theorem C7_equity_curve_tracks_processed_bars {τ : Type} (strat : Strategy τ)
    (c cm sl : ℚ) (st0 : τ) (bars : List Bar) :
    (∀ (s : Simulator) (b : Bar),
        (s.updateEquity b).equity_curve_.length = s.equity_curve_.length + 1) ∧
    (Backtester.runSome strat c cm sl st0 bars).sim.equity_curve_.length =
      (Backtester.runSome strat c cm sl st0 bars).processed.length ∧
    (Backtester.runSome strat c cm sl st0 bars).processed.length ≤ bars.length ∧
    ((Backtester.runSome strat c cm sl st0 bars).processed.length < bars.length →
      (Backtester.runSome strat c cm sl st0 bars).stopped_early_ = true) ∧
    ((Backtester.runSome strat c cm sl st0 bars).stopped_early_ = true →
      (Backtester.runSome strat c cm sl st0 bars).sim.equity_curve_.getLast? =
        some (Backtester.runSome strat c cm sl st0 bars).sim.equity_) := by
  have h := runSome_post strat c cm sl st0 bars
  refine ⟨?_, h.2.1, h.2.2.2.1, h.2.2.2.2.1, h.2.2.2.2.2.1⟩
  intro s b
  rw [Simulator.updateEquity_equity_curve]
  simp

/-- C8: `Backtester::run` returns `false` exactly when the bar sequence could
not be loaded or is empty; in that case nothing is processed and no strategy
hook runs. An early stop via the circuit breaker happens only on a successful
run, with the reason string being "no more equity" or "max drawdown 100%". -/
theorem C8_run_fails_only_on_missing_data {τ : Type} (strat : Strategy τ)
    (c cm sl : ℚ) (st0 : τ) (load_result : Option (List Bar)) :
    ((Backtester.run strat c cm sl st0 load_result).ok = false ↔
        load_result = none ∨ load_result = some []) ∧
    ((Backtester.run strat c cm sl st0 load_result).ok = false →
        (Backtester.run strat c cm sl st0 load_result).processed = [] ∧
        (Backtester.run strat c cm sl st0 load_result).onBarCalls = [] ∧
        (Backtester.run strat c cm sl st0 load_result).fills = [] ∧
        (Backtester.run strat c cm sl st0 load_result).onStartCalled = false ∧
        (Backtester.run strat c cm sl st0 load_result).onEndCalls = 0) ∧
    ((Backtester.run strat c cm sl st0 load_result).stopped_early_ = true →
        (Backtester.run strat c cm sl st0 load_result).ok = true ∧
        ((Backtester.run strat c cm sl st0 load_result).stop_reason_ = "no more equity" ∨
         (Backtester.run strat c cm sl st0 load_result).stop_reason_ = "max drawdown 100%")) := by
  match load_result with
  | none =>
      refine ⟨?_, ?_, ?_⟩
      · simp [Backtester.run]
      · intro _; exact ⟨rfl, rfl, rfl, rfl, rfl⟩
      · intro hs; cases hs
  | some bars =>
      by_cases hE : bars.isEmpty
      · have hb : bars = [] := List.isEmpty_iff.mp hE
        subst hb
        refine ⟨?_, ?_, ?_⟩
        · simp [Backtester.run]
        · intro _
          simp only [Backtester.run]
          exact ⟨rfl, rfl, rfl, rfl, rfl⟩
        · intro hs
          simp only [Backtester.run] at hs
          cases hs
      · have hb : ¬ bars = [] := by
          intro hcon; rw [hcon] at hE; exact hE rfl
        have hrs := (runSome_post strat c cm sl st0 bars).1
        refine ⟨?_, ?_, ?_⟩
        · simp [Backtester.run, hE, hb]
        · intro hok
          simp only [Backtester.run, if_neg hE] at hok
          cases hok
        · intro hs
          constructor
          · simp [Backtester.run, hE]
          · exact hrs hs

/-- A strategy that shorts 100 units while processing bar 0 and is otherwise
idle (used to drive the ruin circuit breaker in the witnesses below). -/
def stratShort100 : Strategy Unit :=
  { onStart := fun _ st => (st, [])
    onBar := fun i _ _ st => (st, if i = 0 then [(Side.Short, 100)] else [])
    onEnd := fun _ st => (st, []) }

/-- Four bars whose price jump from 10 to 30 ruins the short account at bar 2,
before bar 3 is reached. -/
def barsRuin : List Bar :=
  [ { timestamp := "b0", open_ := 10, high := 10, low := 10, close := 10, volume := 0 },
    { timestamp := "b1", open_ := 10, high := 10, low := 10, close := 10, volume := 0 },
    { timestamp := "b2", open_ := 30, high := 30, low := 30, close := 30, volume := 0 },
    { timestamp := "b3", open_ := 30, high := 30, low := 30, close := 30, volume := 0 } ]

/-- The ruin run: initial cash 1000, no commission, no slippage. -/
def runRuin : RunResult Unit := Backtester.runSome stratShort100 1000 0 0 () barsRuin

lemma runRuin_eval :
    runRuin.ok = true ∧
    runRuin.stopped_early_ = true ∧
    runRuin.stop_reason_ = "no more equity" ∧
    runRuin.processed = [(0, 1000), (1, 1000), (2, -1000)] ∧
    runRuin.onBarCalls = [0, 1] ∧
    runRuin.fills = [⟨some 0, 1, 10⟩] ∧
    runRuin.sim.equity_curve_ = [1000, 1000, -1000] ∧
    runRuin.sim.equity_ = -1000 := by
  norm_num [runRuin, Backtester.runSome, Backtester.run, barsRuin, stratShort100, loopGo,
    applyOrders, Simulator.init, Simulator.placeOrder, Simulator.processOrders,
    Simulator.openLeg, Simulator.updateEquity, POSITION_ZERO_EPS,
    Side.long_ne_short, Side.short_ne_long]

/-- C4 witness: in the ruin run, the Short 100 order placed during bar 0 is
filled at bar 1 at bar 1's open (price 10). -/
theorem C4_witness :
    (⟨some 0, 1, 10⟩ : FillEvent) ∈ runRuin.fills ∧
    ((⟨some 0, 1, 10⟩ : FillEvent).filledAt = 0 + 1 ∧
      ∃ b, barsRuin.get? (⟨some 0, 1, 10⟩ : FillEvent).filledAt = some b ∧
        (⟨some 0, 1, 10⟩ : FillEvent).price = b.open_) := by
  have hmem : (⟨some 0, 1, 10⟩ : FillEvent) ∈ runRuin.fills := by
    rw [runRuin_eval.2.2.2.2.2.1]
    exact List.mem_singleton.mpr rfl
  exact ⟨hmem,
    C4_order_placed_at_bar_i_fills_at_next_open stratShort100 1000 0 0 () barsRuin
      ⟨some 0, 1, 10⟩ 0 hmem rfl⟩

/-- C6 witness: in the ruin run the open-based equity at bar 2 is -1000 ≤ 0,
so the run stops there with reason "no more equity", without calling `onBar`
for bar 2, with exactly bars 0..2 processed and three curve points. -/
theorem C6_witness :
    ((2, (-1000 : ℚ)) ∈ runRuin.processed) ∧ ((-1000 : ℚ) ≤ 0) ∧
    (runRuin.stopped_early_ = true ∧ runRuin.stop_reason_ = "no more equity" ∧
     2 ∉ runRuin.onBarCalls ∧ runRuin.processed.map Prod.fst = List.range (2 + 1) ∧
     runRuin.sim.equity_curve_.length = 2 + 1) := by
  have hmem : ((2 : ℕ), (-1000 : ℚ)) ∈ runRuin.processed := by
    rw [runRuin_eval.2.2.2.1]
    simp
  exact ⟨hmem, by norm_num,
    C6_ruin_check_stops_before_strategy stratShort100 1000 0 0 () barsRuin 2 (-1000) hmem
      (by norm_num)⟩

/-- C7 witness: the ruin run processes 3 of the 4 bars (strictly fewer), so it
stopped early, and the stopping bar's final equity (-1000) is the last curve
point. -/
theorem C7_witness :
    runRuin.processed.length < barsRuin.length ∧ runRuin.stopped_early_ = true ∧
    runRuin.sim.equity_curve_.getLast? = some runRuin.sim.equity_ := by
  have hlt : runRuin.processed.length < barsRuin.length := by
    rw [runRuin_eval.2.2.2.1]
    norm_num [barsRuin]
  have h := C7_equity_curve_tracks_processed_bars stratShort100 1000 0 0 () barsRuin
  exact ⟨hlt, h.2.2.2.1 hlt, h.2.2.2.2 (h.2.2.2.1 hlt)⟩

/-- C8 witness: a run with no loadable data fails with nothing processed and no
hook run, while the early-stopped ruin run is a successful run whose reason
string is one of the two circuit-breaker reasons. -/
theorem C8_witness :
    (Backtester.run stratShort100 1000 0 0 () none).ok = false ∧
    (Backtester.run stratShort100 1000 0 0 () none).processed = [] ∧
    (Backtester.run stratShort100 1000 0 0 () none).onStartCalled = false ∧
    runRuin.stopped_early_ = true ∧
    runRuin.ok = true ∧
    (runRuin.stop_reason_ = "no more equity" ∨ runRuin.stop_reason_ = "max drawdown 100%") := by
  have h1 := (C8_run_fails_only_on_missing_data stratShort100 1000 0 0 () none).2.1 rfl
  have hs : runRuin.stopped_early_ = true := runRuin_eval.2.1
  have h2 := (C8_run_fails_only_on_missing_data stratShort100 1000 0 0 () (some barsRuin)).2.2 hs
  exact ⟨rfl, h1.1, h1.2.2.2.1, hs, h2.1, h2.2⟩

end backtest
